import Mathlib

/-!
Verification model of `src/scripts/plagiarism_core.py`.

Strings are modelled as lists of Unicode code points (`List Nat`); byte
strings as lists of bytes.  The text predicates (`pyIsWord`, `pyIsSpace`,
`pyLowerChar`) model Python's `\w`, `\s` and `str.lower` on the ASCII
fragment: non-ASCII code points are treated as non-word, non-space
characters.  Machine integers are `Nat` with explicit `% 2 ^ 32` where the
source wraps.  SQLite tables are lists of rows; the in-memory LSH bucket
dictionary is a list of (band id, bucket hash, document id) entries with
set semantics.  Python `dict`s returned by `check_document` are modelled
by a structure whose optional field records whether the key is present.
-/

/-! Part: Text preprocessing (`preprocess_text`, lines 97-114) -/

/-- Python `\s` on ASCII: space, tab, newline, carriage return, vertical
tab, form feed. -/
def pyIsSpace (c : Nat) : Bool :=
  c == 32 || c == 9 || c == 10 || c == 13 || c == 11 || c == 12

/-- Python `\w` on ASCII: digits, upper-case letters, lower-case letters
and the underscore (code point 95). -/
def pyIsWord (c : Nat) : Bool :=
  decide ((48 ≤ c ∧ c ≤ 57) ∨ (65 ≤ c ∧ c ≤ 90) ∨ (97 ≤ c ∧ c ≤ 122) ∨ c = 95)

/-- Python `str.lower` on ASCII: map A-Z to a-z, leave the rest alone. -/
def pyLowerChar (c : Nat) : Nat :=
  if 65 ≤ c ∧ c ≤ 90 then c + 32 else c

/-- Model of `re.sub(r'[^\w\s]', ' ', text)` acting on one character: characters
that are neither word characters nor whitespace become a space. -/
def replChar (c : Nat) : Nat :=
  if pyIsWord c || pyIsSpace c then c else 32

/-- Model of `re.sub(r'\s+', ' ', text)`: every maximal run of whitespace becomes a
single space character (a whitespace character is dropped when another
whitespace character follows, otherwise emitted as the single space). -/
def collapseWs : List Nat → List Nat
  | [] => []
  | [c] => if pyIsSpace c then [32] else [c]
  | c :: d :: rest =>
    if pyIsSpace c && pyIsSpace d then collapseWs (d :: rest)
    else (if pyIsSpace c then 32 else c) :: collapseWs (d :: rest)

/-- Remove trailing whitespace (the right half of Python `str.strip`). -/
def rstripWs : List Nat → List Nat
  | [] => []
  | c :: cs =>
    let r := rstripWs cs
    if r.isEmpty && pyIsSpace c then [] else c :: r

/-- Model of `preprocess_text`: lowercase, replace non-word non-space characters by
a space, collapse whitespace runs, strip both ends (lines 105-114). -/
def preprocess (l : List Nat) : List Nat :=
  rstripWs (List.dropWhile pyIsSpace (collapseWs ((l.map pyLowerChar).map replChar)))

/-- Accumulator version of whitespace splitting: `cur` holds the current
word reversed. -/
def splitWsAux (cur : List Nat) : List Nat → List (List Nat)
  | [] => if cur.isEmpty then [] else [cur.reverse]
  | c :: cs =>
    if pyIsSpace c then
      if cur.isEmpty then splitWsAux [] cs else cur.reverse :: splitWsAux [] cs
    else splitWsAux (c :: cur) cs

/-- Python `str.split()` with no arguments: split on whitespace runs,
dropping empty pieces. -/
def splitWs (l : List Nat) : List (List Nat) := splitWsAux [] l

/-! Part: MD5 (`hashlib.md5`), used for shingle hashing and band hashing.

The digest is computed from a list of bytes; `md5Int` is the value of
`int(hexdigest, 16)`, i.e. the sixteen digest bytes read big-endian. -/

def u32 : Nat := 4294967296

/-- Left-rotate a 32-bit value by `s` bits (`0 < s < 32` in MD5). -/
def rotl32 (x s : Nat) : Nat :=
  (x * 2 ^ s) % u32 + x / 2 ^ (32 - s)

/-- The 64 MD5 sine-derived constants. -/
def md5K : List Nat :=
  [0xd76aa478, 0xe8c7b756, 0x242070db, 0xc1bdceee,
   0xf57c0faf, 0x4787c62a, 0xa8304613, 0xfd469501,
   0x698098d8, 0x8b44f7af, 0xffff5bb1, 0x895cd7be,
   0x6b901122, 0xfd987193, 0xa679438e, 0x49b40821,
   0xf61e2562, 0xc040b340, 0x265e5a51, 0xe9b6c7aa,
   0xd62f105d, 0x02441453, 0xd8a1e681, 0xe7d3fbc8,
   0x21e1cde6, 0xc33707d6, 0xf4d50d87, 0x455a14ed,
   0xa9e3e905, 0xfcefa3f8, 0x676f02d9, 0x8d2a4c8a,
   0xfffa3942, 0x8771f681, 0x6d9d6122, 0xfde5380c,
   0xa4beea44, 0x4bdecfa9, 0xf6bb4b60, 0xbebfbc70,
   0x289b7ec6, 0xeaa127fa, 0xd4ef3085, 0x04881d05,
   0xd9d4d039, 0xe6db99e5, 0x1fa27cf8, 0xc4ac5665,
   0xf4292244, 0x432aff97, 0xab9423a7, 0xfc93a039,
   0x655b59c3, 0x8f0ccc92, 0xffeff47d, 0x85845dd1,
   0x6fa87e4f, 0xfe2ce6e0, 0xa3014314, 0x4e0811a1,
   0xf7537e82, 0xbd3af235, 0x2ad7d2bb, 0xeb86d391]

/-- The 64 MD5 per-round shift amounts. -/
def md5S : List Nat :=
  [7, 12, 17, 22, 7, 12, 17, 22, 7, 12, 17, 22, 7, 12, 17, 22,
   5, 9, 14, 20, 5, 9, 14, 20, 5, 9, 14, 20, 5, 9, 14, 20,
   4, 11, 16, 23, 4, 11, 16, 23, 4, 11, 16, 23, 4, 11, 16, 23,
   6, 10, 15, 21, 6, 10, 15, 21, 6, 10, 15, 21, 6, 10, 15, 21]

/-- Group bytes into 32-bit little-endian words. -/
def leWords : List Nat → List Nat
  | b0 :: b1 :: b2 :: b3 :: rest =>
    (b0 + 256 * b1 + 65536 * b2 + 16777216 * b3) :: leWords rest
  | _ => []

/-- MD5 padding: a 0x80 byte, zeros to 56 mod 64, then the bit length as
eight little-endian bytes. -/
def md5Pad (msg : List Nat) : List Nat :=
  let bitLen := (8 * msg.length) % 2 ^ 64
  msg ++ [128] ++ List.replicate ((119 - msg.length % 64) % 64) 0
      ++ (List.range 8).map (fun j => bitLen / 2 ^ (8 * j) % 256)

def md5FunF (b c d : Nat) : Nat := Nat.lor (Nat.land b c) (Nat.land (4294967295 - b) d)

def md5FunG (b c d : Nat) : Nat := Nat.lor (Nat.land d b) (Nat.land (4294967295 - d) c)

def md5FunH (b c d : Nat) : Nat := Nat.xor b (Nat.xor c d)

def md5FunI (b c d : Nat) : Nat := Nat.xor c (Nat.lor b (4294967295 - d))

/-- One of the 64 MD5 rounds applied to the running (A, B, C, D) state. -/
def md5Mix (w : List Nat) (st : Nat × Nat × Nat × Nat) (i : Nat) : Nat × Nat × Nat × Nat :=
  let a := st.1
  let b := st.2.1
  let c := st.2.2.1
  let d := st.2.2.2
  let fg : Nat × Nat :=
    if i < 16 then (md5FunF b c d, i)
    else if i < 32 then (md5FunG b c d, (5 * i + 1) % 16)
    else if i < 48 then (md5FunH b c d, (3 * i + 5) % 16)
    else (md5FunI b c d, 7 * i % 16)
  let f := (fg.1 + a + md5K.getD i 0 + w.getD fg.2 0) % u32
  (d, (b + rotl32 f (md5S.getD i 0)) % u32, b, c)

/-- Process one 512-bit block. -/
def md5Process (st : Nat × Nat × Nat × Nat) (blk : List Nat) : Nat × Nat × Nat × Nat :=
  let r := (List.range 64).foldl (md5Mix blk) st
  ((st.1 + r.1) % u32, (st.2.1 + r.2.1) % u32,
   (st.2.2.1 + r.2.2.1) % u32, (st.2.2.2 + r.2.2.2) % u32)

def md5InitState : Nat × Nat × Nat × Nat :=
  (0x67452301, 0xefcdab89, 0x98badcfe, 0x10325476)

def wordLEBytes (w : Nat) : List Nat :=
  [w % 256, w / 256 % 256, w / 65536 % 256, w / 16777216 % 256]

/-- Fold `md5Process` over consecutive 16-word blocks (the padded message
is always a whole number of blocks). -/
def md5Blocks (st : Nat × Nat × Nat × Nat) : List Nat → Nat × Nat × Nat × Nat
  | w0 :: w1 :: w2 :: w3 :: w4 :: w5 :: w6 :: w7 ::
      w8 :: w9 :: w10 :: w11 :: w12 :: w13 :: w14 :: w15 :: rest =>
    md5Blocks (md5Process st
      [w0, w1, w2, w3, w4, w5, w6, w7, w8, w9, w10, w11, w12, w13, w14, w15]) rest
  | _ => st

/-- The sixteen MD5 digest bytes of a byte string. -/
def md5Bytes (msg : List Nat) : List Nat :=
  let fin := md5Blocks md5InitState (leWords (md5Pad msg))
  wordLEBytes fin.1 ++ wordLEBytes fin.2.1 ++ wordLEBytes fin.2.2.1 ++ wordLEBytes fin.2.2.2

/-- Value of `int(hashlib.md5(msg).hexdigest(), 16)`. -/
def md5Int (msg : List Nat) : Nat :=
  (md5Bytes msg).foldl (fun acc b => acc * 256 + b) 0

/-! Part: Shingling (`create_shingles`, lines 120-144) -/

/-- Model of `create_shingles`: preprocess, then either the singleton set holding
the whole (short) text or the set of all `k`-character windows. -/
def createShingles (text : List Nat) (k : Nat) : Finset (List Nat) :=
  let t := preprocess text
  if t.length < k then {t}
  else ((List.range (t.length - k + 1)).map (fun i => (t.drop i).take k)).toFinset

/-! Part: MinHash (`class MinHash`, lines 176-250) -/

/-- Constant `self.max_hash = 2**32 - 1` (line 198). -/
def maxHash : Nat := 2 ^ 32 - 1

/-- Constant `self.prime = 4294967311` (line 199). -/
def minHashPrime : Nat := 4294967311

/-- MinHash configuration.  The source draws `hash_params` from a seeded
Mersenne-Twister PRNG in `__init__`; the generated pair list is taken here
as a construction input (the PRNG itself is not modelled), with each
`a ∈ [1, 2^32-1]` and `b ∈ [0, 2^32-1]` and `|hash_params| = num_hashes`
in every state the source builds. -/
structure MinHash where
  numHashes : Nat
  hashParams : List (Nat × Nat)
deriving DecidableEq, Repr

/-- Model of `_hash_shingle` (lines 206-208): MD5-as-integer reduced modulo
`max_hash = 2^32 - 1`. -/
def hashShingle (s : List Nat) : Nat := md5Int s % maxHash

/-- The per-shingle column of hash values `(a * h0 + b) % prime`. -/
def shingleRow (m : MinHash) (h0 : Nat) : List Nat :=
  m.hashParams.map (fun ab => (ab.1 * h0 + ab.2) % minHashPrime)

/-- The non-empty branch of `compute_signature`: start from all slots at
`max_hash` and take slot-wise minima over the shingles.  The shingle set
is iterated in a canonical (lexicographic) order; the result does not
depend on the order since `min` is fold-commutative. -/
def sigLoop (m : MinHash) (shingles : List (List Nat)) : List Nat :=
  shingles.foldl (fun acc sh => List.zipWith min acc (shingleRow m (hashShingle sh)))
    (List.replicate m.numHashes maxHash)

/-- Model of `compute_signature` (lines 210-234). -/
def computeSignature (m : MinHash) (s : Finset (List Nat)) : List Nat :=
  if s = ∅ then List.replicate m.numHashes maxHash
  else sigLoop m (s.sort (· ≤ ·))

/-- Errors raised by `estimate_similarity`: the explicit `ValueError` on a
length mismatch (the spec's `InvalidSignature`), and Python's
`ZeroDivisionError` when both signatures are empty. -/
inductive SimError where
  | invalidSignature
  | zeroDivision
deriving DecidableEq, Repr

deriving instance DecidableEq for Except

/-- Value of `sum(1 for s1, s2 in zip(sig1, sig2) if s1 == s2)` (line 249). -/
def matchCount (s1 s2 : List Nat) : Nat :=
  (List.zip s1 s2).countP (fun p => p.1 == p.2)

/-- Model of `estimate_similarity` (lines 236-250).  Fractions are modelled as
exact rationals. -/
def MinHash.estimateSimilarity (_m : MinHash) (sig1 sig2 : List Nat) : Except SimError Rat :=
  if sig1.length ≠ sig2.length then .error .invalidSignature
  else if sig1.length = 0 then .error .zeroDivision
  else .ok ((matchCount sig1 sig2 : Rat) / (sig1.length : Rat))

/-! Part: LSH (`class LSH`, lines 256-354) -/

/-- One entry of the in-memory bucket dictionary
`buckets[band_id][bucket_hash] ∋ doc_id`. -/
structure BandEntry where
  bandId : Nat
  bucketHash : Nat
  docId : Nat
deriving DecidableEq, Repr

/-- The LSH index.  `buckets` is the nested defaultdict flattened to a
list of entries with set semantics (duplicates are harmless). -/
structure LSH where
  numBands : Nat
  rowsPerBand : Nat
  buckets : List BandEntry
deriving DecidableEq, Repr

/-- Decimal representation of a natural number, as bytes. -/
def natDecBytes (n : Nat) : List Nat := (Nat.toDigits 10 n).map Char.toNat

/-- Model of `_hash_band` (lines 282-285): MD5 of the band values rendered in
decimal and joined by `,` (byte 44).  The hex digest string is modelled by
its integer value, which determines it bijectively. -/
def bandHash (band : List Nat) : Nat :=
  md5Int (List.intercalate [44] (band.map natDecBytes))

/-- The per-band `(band_id, bucket_hash)` pairs for a signature, slicing
`signature[band*rows .. band*rows+rows]` exactly as the source does. -/
def bandSlices (lsh : LSH) (signature : List Nat) : List (Nat × Nat) :=
  (List.range lsh.numBands).map
    (fun b => (b, bandHash ((signature.drop (b * lsh.rowsPerBand)).take lsh.rowsPerBand)))

/-- Model of `index_signature` (lines 287-301). -/
def LSH.indexSignature (lsh : LSH) (docId : Nat) (signature : List Nat) : LSH :=
  { lsh with
    buckets := lsh.buckets ++ (bandSlices lsh signature).map (fun bh => ⟨bh.1, bh.2, docId⟩) }

/-- Model of `find_candidates` (lines 303-323): union over bands of the bucket each
band hashes to. -/
def LSH.findCandidates (lsh : LSH) (signature : List Nat) : Finset Nat :=
  ((bandSlices lsh signature).flatMap
    (fun bh => lsh.buckets.filterMap
      (fun e => if e.bandId == bh.1 && e.bucketHash == bh.2 then some e.docId else none))).toFinset

/-! Part: Similarity metrics (lines 360-386) -/

/-- Model of `jaccard_similarity` (lines 360-372): `0.0` when either set is empty,
otherwise `|A ∩ B| / |A ∪ B|` (with the source's redundant `union > 0`
guard kept). -/
def jaccardSimilarity (s1 s2 : Finset (List Nat)) : Rat :=
  if s1 = ∅ ∨ s2 = ∅ then 0
  else
    let i := (s1 ∩ s2).card
    let u := (s1 ∪ s2).card
    if 0 < u then (i : Rat) / (u : Rat) else 0

/-! Part: Fragment finder (`find_matching_fragments`, lines 389-451) -/

/-- One matching fragment record; `wordLen` is the source's `'length'`
key (a word count) and `positionDoc2` the result of `str.find` (`-1` when
absent). -/
structure Fragment where
  text : List Nat
  positionDoc1 : Nat
  positionDoc2 : Int
  wordLen : Nat
deriving DecidableEq, Repr

/-- Python's `in` on strings: contiguous substring containment. -/
def isSubstring (needle hay : List Nat) : Bool :=
  (List.range (hay.length + 1)).any (fun i => needle.isPrefixOf (hay.drop i))

/-- Python's `str.find`: first index of a substring occurrence, `-1` if
none. -/
def strFind (needle hay : List Nat) : Int :=
  match (List.range (hay.length + 1)).find? (fun i => needle.isPrefixOf (hay.drop i)) with
  | some i => (i : Int)
  | none => -1

/-- Python `' '.join(words)`. -/
def joinWords (ws : List (List Nat)) : List Nat := List.intercalate [32] ws

/-- Model of the `while match_end < len(words1)` extension loop (lines 419-424):
grow the window while the joined slice still occurs in `t2`. -/
def extendEnd (words1 : List (List Nat)) (t2 : List Nat) (i e : Nat) : Nat :=
  if e < words1.length then
    if isSubstring (joinWords ((words1.drop i).take (e + 1 - i))) t2 then
      extendEnd words1 t2 i (e + 1)
    else e
  else e
termination_by words1.length - e
decreasing_by omega

/-- The candidate-collection loop of `find_matching_fragments` (lines
409-437).  `range(len(words1) - 5 + 1)` is empty in Python whenever
`len(words1) < 5`, hence the explicit guard. -/
def fragScan (words1 words2 : List (List Nat)) (minLength : Nat) : List Fragment :=
  let t2 := joinWords words2
  if words1.length < 5 then []
  else
    (List.range (words1.length - 5 + 1)).filterMap (fun i =>
      if isSubstring (joinWords ((words1.drop i).take 5)) t2 then
        let e := extendEnd words1 t2 i (i + 5)
        let matched := joinWords ((words1.drop i).take (e - i))
        if minLength ≤ matched.length then
          some ⟨matched, i, strFind matched t2, (splitWs matched).length⟩
        else none
      else none)

/-- Model of `matches.sort(key=length, reverse=True)`: stable descending sort. -/
def sortFragsDesc (l : List Fragment) : List Fragment :=
  l.mergeSort (fun f g => decide (g.wordLen ≤ f.wordLen))

/-- The overlap-removal pass (lines 440-451): greedily keep fragments
whose start index is unused, marking every spanned word index. -/
def dedupeFrags (l : List Fragment) : List Fragment :=
  (l.foldl
    (fun acc f =>
      if f.positionDoc1 ∈ acc.2 then acc
      else (acc.1 ++ [f], acc.2 ++ (List.range f.wordLen).map (f.positionDoc1 + ·)))
    (([] : List Fragment), ([] : List Nat))).1

/-- Model of `find_matching_fragments` (lines 389-451). -/
def findMatchingFragments (text1 text2 : List Nat) (minLength : Nat) : List Fragment :=
  dedupeFrags (sortFragsDesc
    (fragScan (splitWs (preprocess text1)) (splitWs (preprocess text2)) minLength))

/-! Part: Persistence and orchestrator (`PlagiarismChecker`, lines 457-646)

The SQLite database is a value: each table is a list of rows.  SQLite's
implicit rowid assignment is modelled by the `nextId` counter; the
`upload_date` wall-clock column is omitted (no claim mentions it). -/

/-- A row of the `documents` table. -/
structure Document where
  id : Nat
  title : List Nat
  author : Option (List Nat)
  filename : Option (List Nat)
  content : List Nat
  wordCount : Nat
  category : List Nat
deriving DecidableEq, Repr

/-- A row of the `fingerprints` table (the JSON signature blob is kept as
the integer list it serializes). -/
structure Fingerprint where
  documentId : Nat
  signature : List Nat
  numShingles : Nat
deriving DecidableEq, Repr

/-- A row of the `lsh_buckets` table. -/
structure BucketRow where
  bandId : Nat
  bucketHash : Nat
  documentId : Nat
deriving DecidableEq, Repr

structure DB where
  documents : List Document
  fingerprints : List Fingerprint
  lshBuckets : List BucketRow
  nextId : Nat
deriving DecidableEq, Repr

/-- The spec's `ConfigError` (invalid construction parameters).  The
source never raises it: `PlagiarismChecker.__init__` contains no
validation. -/
inductive ConfigError where
  | invalidParams
deriving DecidableEq, Repr

structure CheckerState where
  shingleSize : Nat
  minhash : MinHash
  lsh : LSH
  db : DB
deriving DecidableEq, Repr

/-- Model of `PlagiarismChecker.__init__` (lines 462-477): store the parameters,
build the MinHash and LSH objects, and rehydrate the in-memory LSH from
the `lsh_buckets` table (`load_from_db`, lines 344-354).  The body
performs no parameter validation and raises nothing, so the result is
always `.ok`.  As in `MinHash`, the PRNG-generated `hash_params` list is
a construction input. -/
def checkerInit (shingleSize numHashes numBands rowsPerBand : Nat)
    (hashParams : List (Nat × Nat)) (db : DB) : Except ConfigError CheckerState :=
  .ok { shingleSize := shingleSize
        minhash := ⟨numHashes, hashParams⟩
        lsh := ⟨numBands, rowsPerBand,
                db.lshBuckets.map (fun r => ⟨r.bandId, r.bucketHash, r.documentId⟩)⟩
        db := db }

/-- The rows `save_to_db` (lines 325-342) inserts for one document. -/
def lshRowsFor (lsh : LSH) (docId : Nat) (signature : List Nat) : List BucketRow :=
  (bandSlices lsh signature).map (fun bh => ⟨bh.1, bh.2, docId⟩)

/-- Model of `add_document` (lines 479-516): insert the document row (acquiring the
next id), compute shingles and signature, insert the fingerprint row,
index in the in-memory LSH and persist the bucket rows. -/
def addDocument (st : CheckerState) (title content : List Nat)
    (author filename : Option (List Nat)) (category : List Nat) : CheckerState × Nat :=
  let docId := st.db.nextId
  let doc : Document := ⟨docId, title, author, filename, content, (splitWs content).length, category⟩
  let shingles := createShingles content st.shingleSize
  let signature := computeSignature st.minhash shingles
  let fp : Fingerprint := ⟨docId, signature, shingles.card⟩
  ({ st with
      db := { documents := st.db.documents ++ [doc]
              fingerprints := st.db.fingerprints ++ [fp]
              lshBuckets := st.db.lshBuckets ++ lshRowsFor st.lsh docId signature
              nextId := docId + 1 }
      lsh := st.lsh.indexSignature docId signature }, docId)

/-- One entry of the `similar_documents` list in a report. -/
structure SimilarDoc where
  documentId : Nat
  title : List Nat
  author : Option (List Nat)
  similarity : Rat
  matchingFragments : List Fragment
deriving DecidableEq, Repr

/-- The dictionary returned by `check_document`.  `candidatesFound` is
`none` when the returned dict has no `candidates_found` key (the
empty-candidates branch, lines 536-542) and `some n` when it does. -/
structure Report where
  uniquenessScore : Rat
  totalDocumentsChecked : Nat
  candidatesFound : Option Nat
  similarDocuments : List SimilarDoc
  matchingFragments : List Fragment
deriving DecidableEq, Repr

/-- Banker's rounding to the nearest integer, as Python `round` on exact
values (float representation error is idealized away). -/
def roundHalfEven (q : Rat) : Int :=
  let f := q.floor
  let r := q - (f : Rat)
  if r < 1 / 2 then f
  else if 1 / 2 < r then f + 1
  else if f % 2 = 0 then f else f + 1

/-- Python `round(x, 2)`. -/
def pyRound2 (q : Rat) : Rat := ((roundHalfEven (q * 100) : Int) : Rat) / 100

/-- Model of the `SELECT`-plus-join lookup followed by `fetchone` (lines
550-557): the first document row with the id joined with its first
fingerprint row, if both exist. -/
def dbLookupJoin (db : DB) (docId : Nat) : Option (Document × Fingerprint) :=
  match db.documents.find? (fun d => d.id == docId) with
  | none => none
  | some d =>
    match db.fingerprints.find? (fun f => f.documentId == docId) with
    | none => none
    | some f => some (d, f)

/-- Model of `results.sort(key=similarity, reverse=True)`: stable descending. -/
def sortResultsDesc (l : List SimilarDoc) : List SimilarDoc :=
  l.mergeSort (fun a b => decide (b.similarity ≤ a.similarity))

/-- Model of `check_document` (lines 518-598).  Candidates are visited in
ascending id order (Python iterates the set in an unspecified order; the
choice only permutes `results` before the stable sort).  The propagated
`SimError` models the exceptions `estimate_similarity` can raise. -/
def checkDocument (st : CheckerState) (content : List Nat) (topK : Nat) :
    Except SimError Report :=
  let shingles := createShingles content st.shingleSize
  let signature := computeSignature st.minhash shingles
  let candidates := st.lsh.findCandidates signature
  if candidates = ∅ then
    .ok { uniquenessScore := 100
          totalDocumentsChecked := st.db.documents.length
          candidatesFound := none
          similarDocuments := []
          matchingFragments := [] }
  else do
    let results ← (candidates.sort (· ≤ ·)).foldlM
      (fun (acc : List SimilarDoc) docId =>
        match dbLookupJoin st.db docId with
        | none => pure acc
        | some df => do
          let est ← st.minhash.estimateSimilarity signature df.2.signature
          if (3 / 10 : Rat) < est then
            let docShingles := createShingles df.1.content st.shingleSize
            let exact := jaccardSimilarity shingles docShingles
            let fragments := findMatchingFragments content df.1.content 30
            pure (acc ++
              [⟨df.1.id, df.1.title, df.1.author, pyRound2 (exact * 100), fragments.take 5⟩])
          else
            pure acc)
      ([] : List SimilarDoc)
    let top := (sortResultsDesc results).take topK
    let maxSim : Rat := match top with
      | [] => 0
      | r :: _ => r.similarity
    pure { uniquenessScore := pyRound2 (100 - maxSim)
           totalDocumentsChecked := st.db.documents.length
           candidatesFound := some candidates.card
           similarDocuments := top
           matchingFragments := match top with
             | [] => []
             | r :: _ => r.matchingFragments }

/-- Model of `delete_document` (lines 633-646): delete the bucket, fingerprint and
document rows; report whether a document row was removed (the source's
`cursor.rowcount` after the last `DELETE`).  The in-memory `lsh.buckets`
is left untouched, exactly as in the source. -/
def deleteDocument (st : CheckerState) (docId : Nat) : CheckerState × Bool :=
  ({ st with
      db := { documents := st.db.documents.filter (fun d => d.id != docId)
              fingerprints := st.db.fingerprints.filter (fun f => f.documentId != docId)
              lshBuckets := st.db.lshBuckets.filter (fun b => b.documentId != docId)
              nextId := st.db.nextId } },
   st.db.documents.any (fun d => d.id == docId))

/-! Part: Concrete instances used by witnesses and counterexamples -/

/-- A small, fully concrete MinHash (4 hash functions). -/
def exMinHash : MinHash := ⟨4, [(1, 0), (2, 1), (3, 5), (1, 7)]⟩

/-- A checker over an empty store: 2 bands of 2 rows, 4 hash functions. -/
def stEmpty : CheckerState := ⟨5, exMinHash, ⟨2, 2, []⟩, ⟨[], [], [], 1⟩⟩

/-- The bytes of `"abcdef"`. -/
def exContent : List Nat := [97, 98, 99, 100, 101, 102]

def dbEmpty : DB := ⟨[], [], [], 1⟩

/-- State `stEmpty` after `add_document(title="t", content="abc")` (the added
document receives id 1). -/
def stC2Added : CheckerState :=
  (addDocument stEmpty [116] [97, 98, 99] none none [117]).1

/-- State `stC2Added` after `delete_document(1)`. -/
def stC2Deleted : CheckerState := (deleteDocument stC2Added 1).1

/-- The report produced on an empty corpus. -/
def c1Report : Report := ⟨100, 0, none, [], []⟩

/-- A MinHash with the default 128 hash functions. -/
def mC4 : MinHash := ⟨128, (List.range 128).map (fun i => (i + 1, i))⟩

/-! Part: Shape predicates for preprocessed text -/

/-- Characters that preprocessing can output: lower-cased word characters
and the plain space. -/
def isCleanChar (c : Nat) : Bool :=
  (pyIsWord c && !decide (65 ≤ c ∧ c ≤ 90)) || c == 32

/-- No two adjacent whitespace characters. -/
def noAdjSpace : List Nat → Bool
  | c :: d :: rest => !(pyIsSpace c && pyIsSpace d) && noAdjSpace (d :: rest)
  | _ => true

/-- The first character, if any, is not whitespace. -/
def headOkB : List Nat → Bool
  | [] => true
  | c :: _ => !pyIsSpace c

/-- The last character, if any, is not whitespace. -/
def lastOkB (l : List Nat) : Bool :=
  match l.getLast? with
  | none => true
  | some c => !pyIsSpace c

/-- The normal form `preprocess` produces: clean characters only, no
whitespace runs, no leading or trailing whitespace. -/
def isNormalizedText (l : List Nat) : Bool :=
  l.all isCleanChar && noAdjSpace l && headOkB l && lastOkB l

/-! Part: helper lemmas about preprocessing -/

theorem map_id_on {f : Nat → Nat} : ∀ (l : List Nat), (∀ c ∈ l, f c = c) → l.map f = l
  | [], _ => rfl
  | c :: cs, h => by
    simp only [List.map_cons]
    rw [h c (by simp), map_id_on cs (fun x hx => h x (by simp [hx]))]

theorem word_not_space {c : Nat} (h : pyIsWord c = true) : pyIsSpace c = false := by
  simp only [pyIsWord, decide_eq_true_eq] at h
  simp only [pyIsSpace, Bool.or_eq_false_iff, beq_eq_false_iff_ne]
  omega

theorem repl_lower_clean (a : Nat) (h : pyIsSpace (replChar (pyLowerChar a)) = false) :
    isCleanChar (replChar (pyLowerChar a)) = true := by
  simp only [replChar, pyLowerChar, isCleanChar, pyIsWord, pyIsSpace] at *
  split_ifs at * <;> simp_all <;> omega

theorem dropWhile_headOkB : ∀ (l : List Nat), headOkB (l.dropWhile pyIsSpace) = true
  | [] => rfl
  | c :: cs => by
    by_cases h : pyIsSpace c
    · rw [List.dropWhile_cons_of_pos h]
      exact dropWhile_headOkB cs
    · rw [List.dropWhile_cons_of_neg h]
      simp [headOkB, h]

theorem dropWhile_id_of_headOkB {l : List Nat} (h : headOkB l = true) :
    l.dropWhile pyIsSpace = l := by
  cases l with
  | nil => rfl
  | cons c cs =>
    simp only [headOkB, Bool.not_eq_true'] at h
    exact List.dropWhile_cons_of_neg (by simp [h])

theorem rstrip_lastOkB : ∀ (l : List Nat), lastOkB (rstripWs l) = true
  | [] => rfl
  | c :: cs => by
    have ih := rstrip_lastOkB cs
    simp only [rstripWs]
    by_cases hr : (rstripWs cs).isEmpty
    · by_cases hc : pyIsSpace c
      · simp [hr, hc, lastOkB]
      · simp only [hr, hc, Bool.and_false, if_neg (Bool.false_ne_true)]
        rw [List.isEmpty_iff] at hr
        simp [hr, lastOkB, List.getLast?, hc]
    · simp only [hr, Bool.false_and, if_neg (Bool.false_ne_true)]
      rw [List.isEmpty_iff] at hr
      cases h : rstripWs cs with
      | nil => exact absurd h hr
      | cons d t =>
        rw [h] at ih
        simpa [lastOkB, List.getLast?_cons_cons] using ih

theorem rstrip_id_of_lastOkB : ∀ (l : List Nat), lastOkB l = true → rstripWs l = l
  | [], _ => rfl
  | c :: cs, h => by
    cases cs with
    | nil =>
      simp only [lastOkB, List.getLast?_singleton, Bool.not_eq_true'] at h
      simp [rstripWs, h]
    | cons d t =>
      have hcs : lastOkB (d :: t) = true := by
        simpa [lastOkB, List.getLast?_cons_cons] using h
      have ih := rstrip_id_of_lastOkB (d :: t) hcs
      have hdef : rstripWs (c :: d :: t) =
          if (rstripWs (d :: t)).isEmpty && pyIsSpace c then [] else c :: rstripWs (d :: t) := rfl
      rw [hdef, ih]
      simp

theorem rstrip_append : ∀ (l : List Nat), ∃ t, l = rstripWs l ++ t
  | [] => ⟨[], rfl⟩
  | c :: cs => by
    obtain ⟨t, ht⟩ := rstrip_append cs
    simp only [rstripWs]
    by_cases h : (rstripWs cs).isEmpty && pyIsSpace c
    · exact ⟨c :: cs, by simp [h]⟩
    · refine ⟨t, ?_⟩
      simp only [h, if_neg (Bool.false_ne_true)]
      simp [← ht]

theorem rstrip_headOkB {l : List Nat} (h : headOkB l = true) :
    headOkB (rstripWs l) = true := by
  cases l with
  | nil => rfl
  | cons c cs =>
    simp only [rstripWs]
    split
    · rfl
    · simpa [headOkB] using h

theorem noAdjSpace_tail {c : Nat} {cs : List Nat} (h : noAdjSpace (c :: cs) = true) :
    noAdjSpace cs = true := by
  cases cs with
  | nil => rfl
  | cons d t =>
    simp only [noAdjSpace, Bool.and_eq_true] at h
    exact h.2

theorem noAdjSpace_append_left : ∀ (l1 l2 : List Nat),
    noAdjSpace (l1 ++ l2) = true → noAdjSpace l1 = true
  | [], _, _ => rfl
  | [_], _, _ => rfl
  | a :: b :: t, l2, h => by
    simp only [List.cons_append, noAdjSpace, Bool.and_eq_true] at h ⊢
    exact ⟨h.1, noAdjSpace_append_left (b :: t) l2 h.2⟩

theorem dropWhile_noAdjSpace : ∀ {l : List Nat},
    noAdjSpace l = true → noAdjSpace (l.dropWhile pyIsSpace) = true := by
  intro l
  induction l with
  | nil => intro _; rfl
  | cons c cs ih =>
    intro h
    by_cases hc : pyIsSpace c
    · rw [List.dropWhile_cons_of_pos hc]
      exact ih (noAdjSpace_tail h)
    · rwa [List.dropWhile_cons_of_neg hc]

theorem collapse_mem : ∀ (l : List Nat), ∀ c ∈ collapseWs l,
    c = 32 ∨ (c ∈ l ∧ pyIsSpace c = false)
  | [], c, hc => by simp [collapseWs] at hc
  | [a], c, hc => by
    by_cases ha : pyIsSpace a
    · rw [collapseWs, if_pos ha] at hc
      simp only [List.mem_singleton] at hc
      exact Or.inl hc
    · rw [collapseWs, if_neg ha] at hc
      simp only [List.mem_singleton] at hc
      subst hc
      exact Or.inr ⟨by simp, by simpa using ha⟩
  | a :: d :: rest, c, hc => by
    by_cases h : pyIsSpace a && pyIsSpace d
    · rw [collapseWs, if_pos h] at hc
      rcases collapse_mem (d :: rest) c hc with h32 | ⟨hm, hs⟩
      · exact Or.inl h32
      · exact Or.inr ⟨List.mem_cons_of_mem a hm, hs⟩
    · rw [collapseWs, if_neg h] at hc
      rcases List.mem_cons.mp hc with hhd | htl
      · by_cases ha : pyIsSpace a
        · rw [if_pos ha] at hhd
          exact Or.inl hhd
        · rw [if_neg ha] at hhd
          subst hhd
          exact Or.inr ⟨by simp, by simpa using ha⟩
      · rcases collapse_mem (d :: rest) c htl with h32 | ⟨hm, hs⟩
        · exact Or.inl h32
        · exact Or.inr ⟨List.mem_cons_of_mem a hm, hs⟩

theorem collapse_headOkB : ∀ {l : List Nat}, headOkB l = true →
    headOkB (collapseWs l) = true := by
  intro l h
  match l with
  | [] => simp [collapseWs, headOkB]
  | [a] =>
    simp only [headOkB, Bool.not_eq_true'] at h
    rw [collapseWs, if_neg (by simp [h])]
    simp [headOkB, h]
  | a :: d :: rest =>
    simp only [headOkB, Bool.not_eq_true'] at h
    rw [collapseWs, if_neg (by simp [h]), if_neg (by simp [h])]
    simp [headOkB, h]

theorem collapse_noAdjSpace : ∀ (l : List Nat), noAdjSpace (collapseWs l) = true
  | [] => by simp [collapseWs, noAdjSpace]
  | [a] => by
    by_cases ha : pyIsSpace a <;> simp [collapseWs, ha, noAdjSpace]
  | a :: d :: rest => by
    have ih := collapse_noAdjSpace (d :: rest)
    by_cases h : pyIsSpace a && pyIsSpace d
    · rw [collapseWs, if_pos h]
      exact ih
    · rw [collapseWs, if_neg h]
      cases hX : collapseWs (d :: rest) with
      | nil => simp [noAdjSpace]
      | cons x xs =>
        rw [hX] at ih
        have hpair : (pyIsSpace (if pyIsSpace a then 32 else a) && pyIsSpace x) = false := by
          by_cases ha : pyIsSpace a
          · have hnd : pyIsSpace d = false := by
              cases hdd : pyIsSpace d
              · rfl
              · exact absurd (by simp [ha, hdd]) h
            have hh : headOkB (collapseWs (d :: rest)) = true :=
              collapse_headOkB (by simp [headOkB, hnd])
            rw [hX] at hh
            simp only [headOkB, Bool.not_eq_true'] at hh
            simp [hh]
          · simp only [if_neg ha]
            simp only [Bool.not_eq_true] at ha
            simp [ha]
        simp [noAdjSpace, hpair, ih]

theorem collapse_id : ∀ (l : List Nat), noAdjSpace l = true →
    (∀ c ∈ l, pyIsSpace c = true → c = 32) → collapseWs l = l
  | [], _, _ => by simp [collapseWs]
  | [a], _, h32 => by
    by_cases ha : pyIsSpace a
    · rw [collapseWs, if_pos ha, h32 a (by simp) ha]
    · rw [collapseWs, if_neg ha]
  | a :: d :: rest, hadj, h32 => by
    have hpair : (pyIsSpace a && pyIsSpace d) = false := by
      simp only [noAdjSpace, Bool.and_eq_true, Bool.not_eq_true'] at hadj
      exact hadj.1
    rw [collapseWs, if_neg (by simp [hpair])]
    rw [collapse_id (d :: rest) (noAdjSpace_tail hadj)
      (fun c hc hs => h32 c (List.mem_cons_of_mem a hc) hs)]
    by_cases ha : pyIsSpace a
    · rw [if_pos ha, h32 a (by simp) ha]
    · rw [if_neg ha]

theorem l2_clean (l : List Nat) :
    ∀ c ∈ (l.map pyLowerChar).map replChar, pyIsSpace c = false → isCleanChar c = true := by
  intro c hc hns
  simp only [List.map_map, List.mem_map, Function.comp] at hc
  obtain ⟨a, _, ha⟩ := hc
  rw [← ha]
  exact repl_lower_clean a (ha ▸ hns)

theorem preprocess_clean (l : List Nat) : (preprocess l).all isCleanChar = true := by
  rw [List.all_eq_true]
  intro c hc
  obtain ⟨t, hts⟩ :=
    rstrip_append (List.dropWhile pyIsSpace (collapseWs ((l.map pyLowerChar).map replChar)))
  have hcX : c ∈ List.dropWhile pyIsSpace (collapseWs ((l.map pyLowerChar).map replChar)) := by
    rw [hts]; exact List.mem_append_left t hc
  have hcY : c ∈ collapseWs ((l.map pyLowerChar).map replChar) :=
    (List.dropWhile_sublist pyIsSpace).mem hcX
  rcases collapse_mem _ c hcY with h32 | ⟨hmem, hns⟩
  · subst h32; rfl
  · exact l2_clean l c hmem hns

theorem preprocess_noAdj (l : List Nat) : noAdjSpace (preprocess l) = true := by
  obtain ⟨t, hts⟩ :=
    rstrip_append (List.dropWhile pyIsSpace (collapseWs ((l.map pyLowerChar).map replChar)))
  have h1 : noAdjSpace (List.dropWhile pyIsSpace
      (collapseWs ((l.map pyLowerChar).map replChar))) = true :=
    dropWhile_noAdjSpace (collapse_noAdjSpace _)
  rw [hts] at h1
  exact noAdjSpace_append_left _ t h1

theorem preprocess_headOk (l : List Nat) : headOkB (preprocess l) = true :=
  rstrip_headOkB (dropWhile_headOkB _)

theorem preprocess_lastOk (l : List Nat) : lastOkB (preprocess l) = true :=
  rstrip_lastOkB _

theorem preprocess_normalized (l : List Nat) : isNormalizedText (preprocess l) = true := by
  simp only [isNormalizedText, Bool.and_eq_true]
  exact ⟨⟨⟨preprocess_clean l, preprocess_noAdj l⟩, preprocess_headOk l⟩, preprocess_lastOk l⟩

theorem preprocess_id_of_normalized (l : List Nat) (h : isNormalizedText l = true) :
    preprocess l = l := by
  simp only [isNormalizedText, Bool.and_eq_true] at h
  obtain ⟨⟨⟨hall, hadj⟩, hhead⟩, hlast⟩ := h
  rw [List.all_eq_true] at hall
  have hclean : ∀ c ∈ l, (pyIsWord c = true ∧ ¬(65 ≤ c ∧ c ≤ 90)) ∨ c = 32 := by
    intro c hc
    have := hall c hc
    simpa only [isCleanChar, Bool.or_eq_true, Bool.and_eq_true, Bool.not_eq_true',
      beq_iff_eq, decide_eq_false_iff_not] using this
  have hlow : l.map pyLowerChar = l := map_id_on l (fun c hc => by
    rcases hclean c hc with ⟨_, hnu⟩ | h32
    · simp [pyLowerChar, hnu]
    · subst h32; simp [pyLowerChar])
  have hrepl : l.map replChar = l := map_id_on l (fun c hc => by
    rcases hclean c hc with ⟨hw, _⟩ | h32
    · simp [replChar, hw]
    · subst h32; simp [replChar, pyIsSpace])
  have hcol : collapseWs l = l := collapse_id l hadj (fun c hc hs => by
    rcases hclean c hc with ⟨hw, _⟩ | h32
    · exact absurd hs (by simp [word_not_space hw])
    · exact h32)
  unfold preprocess
  rw [hlow, hrepl, hcol, dropWhile_id_of_headOkB hhead, rstrip_id_of_lastOkB l hlast]

/-! Part: helper lemmas about signatures -/

theorem zipWith_min_le : ∀ (a b : List Nat), (∀ x ∈ a, x ≤ maxHash) →
    ∀ v ∈ List.zipWith min a b, v ≤ maxHash
  | [], _, _, v, hv => by simp at hv
  | _ :: _, [], _, v, hv => by simp at hv
  | x :: xs, y :: ys, h, v, hv => by
    rcases List.mem_cons.mp hv with hvm | hvr
    · exact hvm ▸ le_trans (min_le_left x y) (h x (by simp))
    · exact zipWith_min_le xs ys (fun z hz => h z (by simp [hz])) v hvr

theorem sigLoop_le (m : MinHash) (l : List (List Nat)) :
    ∀ v ∈ sigLoop m l, v ≤ maxHash := by
  unfold sigLoop
  suffices h : ∀ (l : List (List Nat)) (acc : List Nat), (∀ x ∈ acc, x ≤ maxHash) →
      ∀ v ∈ l.foldl (fun acc sh => List.zipWith min acc (shingleRow m (hashShingle sh))) acc,
        v ≤ maxHash by
    exact h l _ (fun x hx => le_of_eq (List.eq_of_mem_replicate hx))
  intro l
  induction l with
  | nil => intro acc hacc v hv; exact hacc v hv
  | cons sh rest ih =>
    intro acc hacc v hv
    exact ih _ (zipWith_min_le acc _ hacc) v hv

theorem computeSignature_le (m : MinHash) (s : Finset (List Nat)) :
    ∀ v ∈ computeSignature m s, v ≤ maxHash := by
  unfold computeSignature
  split
  · intro v hv; exact le_of_eq (List.eq_of_mem_replicate hv)
  · exact sigLoop_le m _

/-! Part: claim theorems -/

/-- Claim C1 (amended): whenever the LSH candidate set of the query is
empty (in particular on an empty corpus), `check_document` returns a
report with `uniqueness_score = 100.0`, the document count, empty
`similar_documents` and `matching_fragments`, and **no** `candidates_found`
key at all (modelled as `none`) — the source's empty-candidates branch
omits the key rather than setting it to 0. -/
theorem c1_empty_candidates_report (st : CheckerState) (content : List Nat) (topK : Nat)
    (h : st.lsh.findCandidates
        (computeSignature st.minhash (createShingles content st.shingleSize)) = ∅) :
    checkDocument st content topK =
      .ok ⟨100, st.db.documents.length, none, [], []⟩ := by
  simp only [checkDocument]
  rw [h]
  simp

set_option maxRecDepth 40000 in
/-- Witness for C1 at a concrete empty-corpus state and concrete query. -/
theorem c1_empty_candidates_report_witness :
    stEmpty.lsh.findCandidates
        (computeSignature stEmpty.minhash (createShingles exContent stEmpty.shingleSize)) = ∅
    ∧ checkDocument stEmpty exContent 5 =
        .ok ⟨100, stEmpty.db.documents.length, none, [], []⟩ :=
  ⟨by decide, c1_empty_candidates_report stEmpty exContent 5 (by decide)⟩

set_option maxRecDepth 40000 in
/-- Counterexample for C1 as stated: on an empty corpus the returned
report has no `candidates_found` key (`none`), not a key equal to `0`. -/
theorem c1_counterexample :
    (checkDocument stEmpty exContent 5).toOption.map Report.candidatesFound = some none
    ∧ (none : Option Nat) ≠ some 0 := by
  constructor
  · decide
  · decide

/-- Claim C2 (amended): after `delete_document(id)` no row of the
`fingerprints` or `lsh_buckets` tables references `id`; the in-memory
band tables, however, are not touched by the source, so `id` may remain
there (see the counterexample). -/
theorem c2_delete_cascades_db_only (st : CheckerState) (docId : Nat) :
    ((deleteDocument st docId).1.db.fingerprints.all
        (fun f => f.documentId != docId) = true)
    ∧ ((deleteDocument st docId).1.db.lshBuckets.all
        (fun b => b.documentId != docId) = true) := by
  constructor
  · rw [List.all_eq_true]
    intro f hf
    exact (List.mem_filter.mp hf).2
  · rw [List.all_eq_true]
    intro b hb
    exact (List.mem_filter.mp hb).2

set_option maxRecDepth 100000 in
/-- Counterexample for C2 as stated: add document 1 and delete it; the
deletion succeeds and cascades in the database, yet id 1 is still present
in the in-memory LSH band tables. -/
theorem c2_counterexample :
    (deleteDocument stC2Added 1).2 = true
    ∧ stC2Deleted.db.lshBuckets.all (fun b => b.documentId != 1) = true
    ∧ stC2Deleted.db.fingerprints.all (fun f => f.documentId != 1) = true
    ∧ stC2Deleted.db.documents.all (fun d => d.id != 1) = true
    ∧ stC2Deleted.lsh.buckets.any (fun e => e.docId == 1) = true := by decide

/-- Claim C3 (amended): `PlagiarismChecker.__init__` performs no
parameter validation at all — construction succeeds for every parameter
combination (band-times-rows mismatches and zero sizes included), simply
storing the parameters and rehydrating the in-memory LSH from the
`lsh_buckets` table; `ConfigError` is never raised. -/
theorem c3_construction_never_fails (s h b r : Nat) (hp : List (Nat × Nat)) (db : DB) :
    ∃ st, checkerInit s h b r hp db = .ok st
      ∧ st.lsh.numBands = b ∧ st.lsh.rowsPerBand = r
      ∧ st.minhash.numHashes = h ∧ st.minhash.hashParams = hp
      ∧ st.lsh.buckets =
          db.lshBuckets.map (fun row => ⟨row.bandId, row.bucketHash, row.documentId⟩)
      ∧ st.db = db :=
  ⟨_, rfl, rfl, rfl, rfl, rfl, rfl, rfl⟩

/-- Counterexample for C3 as stated: construction succeeds with
`num_bands * rows_per_band = 15 ≠ 7 = num_hashes`, and with all sizes
zero, instead of failing with `ConfigError`. -/
theorem c3_counterexample :
    (checkerInit 5 7 3 5 [] dbEmpty).isOk = true
    ∧ (checkerInit 0 0 0 0 [] dbEmpty).isOk = true := by decide

/-- Claim C4 (amended): `estimate_similarity` fails (with the
`InvalidSignature` error) exactly when the two signatures have different
lengths — the common length is never compared with the configured H; for
equal nonzero lengths it returns the fraction of equal slots (a value in
[0, 1] since the match count is at most the length). -/
theorem c4_estimate_length_check (m : MinHash) (s1 s2 : List Nat) :
    (m.estimateSimilarity s1 s2 = .error SimError.invalidSignature ↔ s1.length ≠ s2.length)
    ∧ (s1.length = s2.length → 0 < s1.length →
        m.estimateSimilarity s1 s2 = .ok ((matchCount s1 s2 : Rat) / (s1.length : Rat))
        ∧ matchCount s1 s2 ≤ s1.length) := by
  constructor
  · unfold MinHash.estimateSimilarity
    by_cases h : s1.length = s2.length
    · rw [if_neg (by omega)]
      constructor
      · intro hx
        split at hx <;> simp at hx
      · intro hx; exact absurd h hx
    · rw [if_pos h]
      simp [h]
  · intro h hpos
    constructor
    · unfold MinHash.estimateSimilarity
      rw [if_neg (by omega), if_neg (by omega)]
    · calc matchCount s1 s2 ≤ (List.zip s1 s2).length := List.countP_le_length _
        _ ≤ s1.length := by rw [List.length_zip]; omega

/-- Witness for C4 at two concrete equal-length signatures. -/
theorem c4_estimate_length_check_witness :
    mC4.estimateSimilarity [1, 2, 3] [1, 2, 4] =
      .ok ((matchCount [1, 2, 3] [1, 2, 4] : Rat) / (([1, 2, 3] : List Nat).length : Rat))
    ∧ matchCount [1, 2, 3] [1, 2, 4] ≤ ([1, 2, 3] : List Nat).length :=
  (c4_estimate_length_check mC4 [1, 2, 3] [1, 2, 4]).2 rfl (by decide)

/-- Counterexample for C4 as stated: with H = 128 configured, two
signatures of length 3 do not raise `InvalidSignature` — the call
succeeds although 3 is not the configured number of hash functions. -/
theorem c4_counterexample :
    mC4.numHashes = 128
    ∧ ([1, 2, 3] : List Nat).length ≠ mC4.numHashes
    ∧ (mC4.estimateSimilarity [1, 2, 3] [1, 2, 4]).isOk = true := by decide

/-- Claim C5 (amended): the integer shingle hash is the MD5 digest value
reduced modulo `2^32 - 1` (the source's `max_hash`), not modulo `2^32`;
in particular it always lies strictly below `2^32 - 1`. -/
theorem c5_hash_mod_maxhash (s : List Nat) :
    hashShingle s = md5Int s % (2 ^ 32 - 1) ∧ hashShingle s < 2 ^ 32 - 1 :=
  ⟨rfl, Nat.mod_lt _ (by decide)⟩

set_option maxRecDepth 40000 in
/-- Counterexample for C5 as stated: for the shingle `"abc"` the hash
differs from the MD5 digest reduced modulo `2^32`. -/
theorem c5_counterexample : hashShingle [97, 98, 99] ≠ md5Int [97, 98, 99] % 2 ^ 32 := by
  decide

/-- Claim C6 (confirmed): every slot of a computed signature is at most
`2^32 - 1` (slots start at `max_hash` and only shrink under `min`), even
though per-shingle values `(a * h0 + b) % P` with `P = 4294967311` can
exceed `2^32 - 1`, as the exhibited parameters within the construction
ranges show. -/
theorem c6_signature_slots_u32 (m : MinHash) (s : Finset (List Nat)) :
    ((computeSignature m s).all (fun v => decide (v ≤ 2 ^ 32 - 1)) = true)
    ∧ ∃ a h0 b, 1 ≤ a ∧ a ≤ maxHash ∧ b ≤ maxHash ∧ h0 ≤ maxHash
        ∧ maxHash < (a * h0 + b) % minHashPrime := by
  constructor
  · rw [List.all_eq_true]
    intro v hv
    rw [decide_eq_true_iff]
    exact computeSignature_le m s v hv
  · exact ⟨1, 1, maxHash, le_refl 1, by decide, le_refl _, by decide, by decide⟩

/-- Claim C7 (code bug): the source's regex `[^\w\s]` keeps the
underscore (a `\w` character), contradicting both the spec and the
source's own comment "keep only letters, numbers, spaces": `"a_b"`
normalizes to itself, with the underscore still present. -/
theorem c7_underscore_kept_eval :
    preprocess [97, 95, 98] = [97, 95, 98]
    ∧ pyIsWord 95 = true
    ∧ 95 ∈ preprocess [97, 95, 98] := by decide

/-- Claim C8 (confirmed): normalization is idempotent —
`preprocess (preprocess x) = preprocess x` for every string. -/
theorem c8_normalize_idempotent (l : List Nat) :
    preprocess (preprocess l) = preprocess l :=
  preprocess_id_of_normalized (preprocess l) (preprocess_normalized l)

/-- Claim C9 (amended): exact Jaccard similarity always lies in [0, 1];
it equals 1 iff the two sets are equal **and non-empty** (the source
returns 0.0, not 1, when either set is empty); it equals 0 iff the sets
are disjoint. -/
theorem c9_jaccard_bounds_amended (s1 s2 : Finset (List Nat)) :
    (0 ≤ jaccardSimilarity s1 s2 ∧ jaccardSimilarity s1 s2 ≤ 1)
    ∧ (jaccardSimilarity s1 s2 = 1 ↔ (s1 = s2 ∧ s1 ≠ ∅))
    ∧ (jaccardSimilarity s1 s2 = 0 ↔ s1 ∩ s2 = ∅) := by
  by_cases h : s1 = ∅ ∨ s2 = ∅
  · have hj : jaccardSimilarity s1 s2 = 0 := by unfold jaccardSimilarity; rw [if_pos h]
    refine ⟨⟨le_of_eq hj.symm, by rw [hj]; norm_num⟩, ?_, ?_⟩
    · constructor
      · intro h1; rw [hj] at h1; norm_num at h1
      · rintro ⟨heq, hne⟩
        rcases h with h1 | h2
        · exact absurd h1 hne
        · exact absurd (heq.trans h2) hne
    · constructor
      · intro _
        rcases h with h1 | h2
        · rw [h1, Finset.empty_inter]
        · rw [h2, Finset.inter_empty]
      · intro _; exact hj
  · push_neg at h
    obtain ⟨h1, h2⟩ := h
    have hs1 : s1.Nonempty := Finset.nonempty_iff_ne_empty.mpr h1
    have hu : 0 < (s1 ∪ s2).card := by
      obtain ⟨x, hx⟩ := hs1
      exact Finset.card_pos.mpr ⟨x, Finset.mem_union_left s2 hx⟩
    have huQ : ((s1 ∪ s2).card : Rat) ≠ 0 := by
      exact_mod_cast Nat.pos_iff_ne_zero.mp hu
    have hj : jaccardSimilarity s1 s2 =
        ((s1 ∩ s2).card : Rat) / ((s1 ∪ s2).card : Rat) := by
      unfold jaccardSimilarity
      rw [if_neg (by push_neg; exact ⟨h1, h2⟩), if_pos hu]
    have hle : (s1 ∩ s2).card ≤ (s1 ∪ s2).card :=
      Finset.card_le_card Finset.inter_subset_union
    refine ⟨⟨?_, ?_⟩, ?_, ?_⟩
    · rw [hj]; positivity
    · rw [hj]
      rw [div_le_one (by exact_mod_cast hu)]
      exact_mod_cast hle
    · rw [hj]
      rw [div_eq_one_iff_eq huQ]
      constructor
      · intro hcast
        have hcard : (s1 ∩ s2).card = (s1 ∪ s2).card := by exact_mod_cast hcast
        have hiu : s1 ∩ s2 = s1 ∪ s2 :=
          Finset.eq_of_subset_of_card_le Finset.inter_subset_union (le_of_eq hcard.symm)
        have hsub1 : s1 ⊆ s2 := fun x hx =>
          Finset.mem_of_mem_inter_right (hiu ▸ Finset.mem_union_left s2 hx)
        have hsub2 : s2 ⊆ s1 := fun x hx =>
          Finset.mem_of_mem_inter_left (hiu ▸ Finset.mem_union_right s1 hx)
        exact ⟨Finset.Subset.antisymm hsub1 hsub2, h1⟩
      · rintro ⟨heq, _⟩
        subst heq
        rw [Finset.inter_self, Finset.union_self]
    · rw [hj, div_eq_zero_iff]
      constructor
      · intro hc
        rcases hc with hc | hc
        · have : (s1 ∩ s2).card = 0 := by exact_mod_cast hc
          exact Finset.card_eq_zero.mp this
        · exact absurd hc huQ
      · intro hc
        left
        rw [hc]
        simp

/-- Counterexample for C9 as stated: both sets empty are equal, yet the
source returns similarity 0, not 1. -/
theorem c9_counterexample :
    jaccardSimilarity (∅ : Finset (List Nat)) ∅ = 0
    ∧ (∅ : Finset (List Nat)) = ∅ := by
  constructor
  · unfold jaccardSimilarity
    rw [if_pos (Or.inl rfl)]
  · rfl

/-- Claim C10 (confirmed): for `k ≥ 1`, `create_shingles` always returns
a non-empty set — when the normalized text is shorter than `k` it is the
singleton holding the normalized text itself — and consequently
`compute_signature` applied to it always takes the non-empty loop branch,
never the empty-set branch. -/
theorem c10_shingles_nonempty (t : List Nat) (k : Nat) (m : MinHash) (_hk : 1 ≤ k) :
    createShingles t k ≠ ∅
    ∧ ((preprocess t).length < k → createShingles t k = {preprocess t})
    ∧ computeSignature m (createShingles t k) =
        sigLoop m ((createShingles t k).sort (· ≤ ·)) := by
  have hne : createShingles t k ≠ ∅ := by
    unfold createShingles
    by_cases h : (preprocess t).length < k
    · rw [if_pos h]
      exact Finset.singleton_ne_empty _
    · rw [if_neg h]
      intro hcontra
      rw [List.toFinset_eq_empty_iff, List.map_eq_nil_iff, List.range_eq_nil] at hcontra
      omega
  refine ⟨hne, ?_, ?_⟩
  · intro h
    unfold createShingles
    rw [if_pos h]
  · unfold computeSignature
    rw [if_neg hne]

set_option maxRecDepth 40000 in
/-- Witness for C10 at the concrete short text `"ab"` with the default
`k = 5`. -/
theorem c10_shingles_nonempty_witness :
    1 ≤ 5
    ∧ (createShingles [97, 98] 5 ≠ ∅
        ∧ ((preprocess [97, 98]).length < 5 → createShingles [97, 98] 5 = {preprocess [97, 98]})
        ∧ computeSignature exMinHash (createShingles [97, 98] 5) =
            sigLoop exMinHash ((createShingles [97, 98] 5).sort (· ≤ ·))) :=
  ⟨by decide, c10_shingles_nonempty [97, 98] 5 exMinHash (by decide)⟩
